import Mathlib

/-!
Verification of the hybrid data-compression pipeline
(repository: Arquitetura-h-brida-de-compress-o-de-dados).

The repository contains per-algorithm re-compression scripts
(src/GMIX/recompress_conteiner_gmix.py, src/bsc-m03/recompress_conteiner_bsc.py)
and a restore script (src/bsc-m03/descomprime_conteiner_bsc.py).
We shallowly embed the pure computational core of those scripts:

* the container codec (pack_container / unpack_container / is_container),
  with byte streams modelled as `List Nat` (each element one byte) and
  little-endian fixed-width fields written exactly as Python's
  struct.pack does;
* the reduction-percentage formula (pct_reduction);
* the adaptive timeout estimator (est_timeout_adaptativo), with float
  arithmetic modelled over ℚ;
* the retry/backoff supervisor of the compress call (the
  try/except-TimeoutExpired loop in main);
* the algorithm detector of the restore script (decide_algo and its
  three stages);
* the effect-level skeleton of the re-compression main loop, with the
  external compressor's per-iteration outcome as a parameter.
-/

namespace Arch

/-! ## Little-endian fixed-width integers (Python struct '<H', '<I', '<Q') -/

/-- Little-endian encoding of `v` into `k` bytes, as `struct.pack` lays
them out (low byte first).  Values ≥ 2^(8*k) are truncated (Python
`struct.pack` raises there; all theorems below carry the corresponding
range hypotheses). -/
def leEnc : Nat → Nat → List Nat
  | 0, _ => []
  | k + 1, v => v % 256 :: leEnc k (v / 256)

/-- Little-endian decoding of a byte list, as `struct.unpack` reads it. -/
def leDec : List Nat → Nat
  | [] => 0
  | b :: bs => b + 256 * leDec bs

theorem leEnc_length (k v : Nat) : (leEnc k v).length = k := by
  induction k generalizing v with
  | zero => rfl
  | succ k ih => simp [leEnc, ih]

theorem leDec_leEnc (k v : Nat) : leDec (leEnc k v) = v % 256 ^ k := by
  induction k generalizing v with
  | zero => simp [leEnc, leDec, Nat.mod_one]
  | succ k ih =>
      have hc : 0 < 256 ^ k := Nat.pow_pos (by omega)
      have h3 : v % 256 < 256 := Nat.mod_lt _ (by omega)
      have h4 : v / 256 % 256 ^ k < 256 ^ k := Nat.mod_lt _ hc
      have key : v % 256 + 256 * (v / 256 % 256 ^ k) < 256 * 256 ^ k := by
        nlinarith
      have hv : v = (v % 256 + 256 * (v / 256 % 256 ^ k)) +
          (256 * 256 ^ k) * (v / 256 / 256 ^ k) := by
        conv_lhs => rw [← Nat.div_add_mod v 256, ← Nat.div_add_mod (v / 256) (256 ^ k)]
        ring
      simp only [leEnc, leDec, ih]
      rw [pow_succ, Nat.mul_comm (256 ^ k) 256]
      conv_rhs => rw [hv]
      rw [Nat.add_mul_mod_self_left, Nat.mod_eq_of_lt key]

theorem leDec_leEnc_of_lt {k v : Nat} (h : v < 256 ^ k) :
    leDec (leEnc k v) = v := by
  rw [leDec_leEnc, Nat.mod_eq_of_lt h]

/-! ## Container codec

Embeds `pack_container` (recompress_conteiner_gmix.py lines 62-79,
identical in recompress_conteiner_bsc.py lines 61-75) and
`unpack_container` / `is_container`
(descomprime_conteiner_bsc.py lines 186-200 / 157-184).
A byte stream is a `List Nat`; entry names are kept at the byte level
(the scripts write `name.encode('utf-8')` and read back with
`decode('utf-8', errors='replace')`, so for the UTF-8 names the scripts
produce, the byte level is exact). -/

/-- ASCII digits of `n` left-padded with the digit 0 to `width` digits,
as Python's format spec `{n:0<width>d}` renders a nonnegative int. -/
def padNum (width n : Nat) : List Char :=
  let ds := Nat.toDigits 10 n
  List.replicate (width - ds.length) '0' ++ ds

/-- UTF-8 bytes of the inner-file name
    `f"copy_{i:04d}_" + base` (pack_container line 73),
with `base` already given as its UTF-8 byte sequence. -/
def nameBytes (i : Nat) (base : List Nat) : List Nat :=
  ("copy_".data ++ padNum 4 i).map Char.toNat ++ (95 :: base)

/-- Serialized bytes of the `i`-th container entry
(pack_container lines 73-78): `<H name_len><name><Q data_len><data>`. -/
def entryBytes (i : Nat) (base data : List Nat) : List Nat :=
  leEnc 2 (nameBytes i base).length ++ nameBytes i base ++
    leEnc 8 data.length ++ data

/-- `pack_container` (lines 62-79): `<I copies>` then entries for
`i = 1 .. copies`.  `data` is the source file's bytes, `base` the UTF-8
bytes of its base name. -/
def pack_container (data : List Nat) (copies : Nat) (base : List Nat) :
    List Nat :=
  leEnc 4 copies ++
    (List.range' 1 copies).flatMap (fun i => entryBytes i base data)

/-- One entry read of `unpack_container` (lines 191-195): `<H name_len>`,
`name_len` name bytes, `<Q data_len>`, `data_len` data bytes; returns the
`(name, data)` pair and the remaining stream.  `struct.unpack` demands the
full 2/8 header bytes (`none` on a short read), while `f.read(k)` of the
name/data silently returns what is left, exactly as `List.take` does. -/
def readEntry (bs : List Nat) : Option ((List Nat × List Nat) × List Nat) :=
  if bs.length < 2 then none else
  let nameLen := leDec (bs.take 2)
  let r1 := bs.drop 2
  let name := r1.take nameLen
  let r2 := r1.drop nameLen
  if r2.length < 8 then none else
  let dataLen := leDec (r2.take 8)
  let r3 := r2.drop 8
  some ((name, r3.take dataLen), r3.drop dataLen)

/-- The `for _ in range(n)` loop of `unpack_container` (lines 190-199),
collecting the `(name, data)` pairs in encounter order. -/
def readEntries : Nat → List Nat → Option (List (List Nat × List Nat))
  | 0, _ => some []
  | n + 1, bs =>
      match readEntry bs with
      | none => none
      | some (e, rest) =>
          match readEntries n rest with
          | none => none
          | some es => some (e :: es)

/-- `unpack_container` (lines 186-200): read `<I n>` then `n` entries.
The script then writes each entry to `out_dir / name`; we return the
ordered `(name bytes, data bytes)` list those writes are made from. -/
def unpack_container (bs : List Nat) :
    Option (List (List Nat × List Nat)) :=
  if bs.length < 4 then none
  else readEntries (leDec (bs.take 4)) (bs.drop 4)

/-- `is_container` (descomprime_conteiner_bsc.py lines 157-184): header
sniff.  Mirrors each check in order: 4 count bytes present; count in
`(0, 1_000_000]`; 2 name-length bytes present; name length in
`(0, 4096]`; full name present; 8 data-length bytes present; declared
data length at most the bytes remaining past the read position
(`f.tell() = 4 + 2 + name_len + 8`). -/
def is_container (bs : List Nat) : Bool :=
  if bs.length < 4 then false else
  let n := leDec (bs.take 4)
  if n = 0 ∨ n > 1000000 then false else
  let r1 := bs.drop 4
  if r1.length < 2 then false else
  let nameLen := leDec (r1.take 2)
  if nameLen = 0 ∨ nameLen > 4096 then false else
  let r2 := r1.drop 2
  if r2.length < nameLen then false else
  let r3 := r2.drop nameLen
  if r3.length < 8 then false else
  let size := leDec (r3.take 8)
  if size > bs.length - (4 + 2 + nameLen + 8) then false else true

/-! ## Reduction percentage and adaptive timeout
(recompress_conteiner_gmix.py lines 123-126 and 147-152; the bsc-m03
variant has the same functions, lines 100-103 and 124-128, with the same
constants).  Python float arithmetic is modelled over ℚ (the literal
`0.30` taken at its decimal value), `int(x)` of the nonnegative quotient
is `Int.floor`. -/

def THRESHOLD_PCT : ℚ := -3
/-- GMIX config; the bsc-m03 script uses 500 (none of the properties
below depend on the specific value). -/
def MAX_ITERS : Nat := 300
def TIMEOUT_BASE_SEC : ℤ := 14400
def ADAPTIVE_SAFETY_MARGIN : ℤ := 600
def RETRY_MAX : Nat := 6

/-- `pct_reduction` (lines 123-126): the guard `not orig or not comp or
orig <= 0` returns 0.0 when either argument is `None` or 0 (sizes are
nonnegative, so `orig <= 0` adds nothing beyond `orig == 0`). -/
def pct_reduction (orig comp : Option Nat) : ℚ :=
  match orig, comp with
  | some o, some c =>
      if o = 0 ∨ c = 0 then 0 else (1 - (c : ℚ) / o) * 100
  | _, _ => 0

/-- `est_timeout_adaptativo` (lines 147-152).  `last_bps and
last_bps > 0` is truthy exactly when the sample exists and is positive. -/
def est_timeout_adaptativo (container_bytes : Nat) (last_bps : Option ℚ) :
    ℤ :=
  match last_bps with
  | some b =>
      if 0 < b then
        max TIMEOUT_BASE_SEC
          (⌊(container_bytes : ℚ) / max (b * (3 / 10)) 1⌋ +
            ADAPTIVE_SAFETY_MARGIN)
      else TIMEOUT_BASE_SEC + ADAPTIVE_SAFETY_MARGIN
  | none => TIMEOUT_BASE_SEC + ADAPTIVE_SAFETY_MARGIN

/-! ## Retry supervisor
(recompress_conteiner_gmix.py lines 185-202; identical in the bsc script
lines 157-173.)  `ok a` abstracts the adapter call at attempt `a`:
`true` when `gmix_compress` returns within the current budget, `false`
when `subprocess.TimeoutExpired` is raised.  A non-timeout failure is
not handled by this loop (the RuntimeError propagates out of it) and is
treated at the iteration level below. -/

inductive RetryResult where
  | success (attempt : Nat) (timeout : Nat)
  | exhausted (attempts : Nat)
  deriving DecidableEq

/-- The `while True` retry loop: at attempt `a` with budget `t`, succeed,
or exhaust when `attempt >= RETRY_MAX`, or retry with the attempt counter
incremented and the budget doubled (`timeout_s *= 2`).  `fuel` only
bounds the recursion; `RETRY_MAX` fuel is enough to reach the exhaustion
check from attempt 1. -/
def retryGo (ok : Nat → Bool) : Nat → Nat → Nat → RetryResult
  | 0, a, _ => .exhausted a
  | fuel + 1, a, t =>
      if ok a then .success a t
      else if RETRY_MAX ≤ a then .exhausted a
      else retryGo ok fuel (a + 1) (t * 2)

def retrySupervisor (ok : Nat → Bool) (t0 : Nat) : RetryResult :=
  retryGo ok RETRY_MAX 1 t0

/-! ## Main-loop skeleton
(recompress_conteiner_gmix.py lines 158-280; recompress_conteiner_bsc.py
has the same structure, lines 134-247, with MAX_ITERS = 500.)  Filesystem
and subprocess side effects are recorded as an ordered `Effect` trace;
the external compressor's resolved per-iteration outcome (after the
retry loop above) is the parameter `f`. -/

inductive IterOutcome where
  | ok (red : ℚ)        -- compress finished; `red` the reduction pct recorded
  | timeoutExhausted    -- all RETRY_MAX attempts timed out
  | hardFail            -- nonzero exit, or output file missing (RuntimeError)

inductive Effect where
  | ensureDirs
  | csvHeader
  | mkIterDir (it : Nat)
  | pack (it : Nat)
  | runCompress (it : Nat)
  | csvRow (it : Nat)
  | copyFirstToFinal
  | copyBestToFinal (it : Nat)
  | writeManifest (it : Nat)
  deriving DecidableEq

inductive RunError where
  | missingInput
  | timeoutNoBest (it : Nat)
  | hardFailure (it : Nat)
  deriving DecidableEq

/-- One iteration body of the `for it in range(1, MAX_ITERS+1)` loop
(lines 170-243): pack a container of `it` copies, run the compressor; on
timeout exhaustion re-raise when no best exists, else stop with the
existing best; on hard failure propagate; on success append the CSV row,
then accept as best and continue when `red >= THRESHOLD_PCT`, else stop
keeping the prior best.  `r` is the rest of the loop's run (used only in
the accepted branch; passing it applied is harmless in a pure model). -/
def iterResult (it : Nat) (best : Option Nat) (o : IterOutcome)
    (r : List Effect × Except RunError (Option Nat)) :
    List Effect × Except RunError (Option Nat) :=
  let pre := [Effect.mkIterDir it, Effect.pack it, Effect.runCompress it]
  match o with
  | .timeoutExhausted =>
      match best with
      | none => (pre, .error (.timeoutNoBest it))
      | some b => (pre, .ok (some b))
  | .hardFail => (pre, .error (.hardFailure it))
  | .ok red =>
      if red ≥ THRESHOLD_PCT then (pre ++ [Effect.csvRow it] ++ r.1, r.2)
      else (pre ++ [Effect.csvRow it], .ok best)

def loopGo (f : Nat → IterOutcome) :
    Nat → Nat → Option Nat → List Effect × Except RunError (Option Nat)
  | 0, _, best => ([], .ok best)
  | fuel + 1, it, best =>
      iterResult it best (f it) (loopGo f fuel (it + 1) (some it))

/-- `main` (lines 158-286): create the work and final directories and the
CSV header, check the input file, run the loop, then finalize — copying
iteration 1's artifacts when no iteration was ever accepted (no
manifest), else copying the best iteration's artifacts and writing
`manifest.json` for it. -/
def mainRun (inputExists : Bool) (f : Nat → IterOutcome) :
    List Effect × Except RunError Unit :=
  let pre := [Effect.ensureDirs, Effect.csvHeader]
  if inputExists then
    match loopGo f MAX_ITERS 1 none with
    | (tr, .error e) => (pre ++ tr, .error e)
    | (tr, .ok none) => (pre ++ tr ++ [Effect.copyFirstToFinal], .ok ())
    | (tr, .ok (some b)) =>
        (pre ++ tr ++ [Effect.copyBestToFinal b, Effect.writeManifest b],
          .ok ())
  else (pre, .error .missingInput)

/-- The synthetic reduction sequence 5.0, 4.0, −4.0, 3.0 of the spec's
Search Loop test. -/
def c2reds : Nat → ℚ := fun it =>
  if it = 1 then 5 else if it = 2 then 4 else if it = 3 then -4 else 3

/-! ## Algorithm detector
(descomprime_conteiner_bsc.py lines 43-146.)  Filenames are `List Char`;
`Char.toLower` agrees with Python `str.lower` on the ASCII names
involved.  The sibling `manifest.json`'s "algorithm" field (when the file
exists and parses) is abstracted as an `Option (List Char)` input. -/

def SUPPORTED_ALGOS : List (List Char) :=
  ["cmix".data, "gmix".data, "bsc".data, "lstm".data, "paq8px".data]

/-- `EXT_MAP` in its source (dict) order, lines 68-76. -/
def EXT_MAP : List (List Char × List Char) :=
  [(".cmix".data, "cmix".data), (".gmix".data, "gmix".data),
   (".bsc".data, "bsc".data), (".lstm".data, "lstm".data),
   (".paq8".data, "paq8px".data), (".paq8px".data, "paq8px".data),
   (".paq".data, "paq8px".data)]

/-- `sorted(EXT_MAP.keys(), key=len, reverse=True)` — Python's stable
sort by descending key length (line 106). -/
def EXT_SORTED : List (List Char × List Char) :=
  [(".paq8px".data, "paq8px".data),
   (".cmix".data, "cmix".data), (".gmix".data, "gmix".data),
   (".lstm".data, "lstm".data), (".paq8".data, "paq8px".data),
   (".bsc".data, "bsc".data), (".paq".data, "paq8px".data)]

def lowerL (s : List Char) : List Char := s.map Char.toLower

def endsWithL (s suff : List Char) : Bool := suff.isSuffixOf s

/-- `detect_algo_from_ext` (lines 103-109): first key, longest first,
that the lowercased path ends with.  (The computed `ext` local on line
104 is never used by the function.) -/
def detect_algo_from_ext (path : List Char) : Option (List Char) :=
  EXT_SORTED.findSome? fun kv =>
    if endsWithL (lowerL path) kv.1 then some kv.2 else none

def isWordChar (c : Char) : Bool := c.isAlpha || c.isDigit || c == '_'

def ciEq (a b : Char) : Bool := a.toLower == b.toLower

/-- Case-insensitive "s starts with w". -/
def ciStarts : List Char → List Char → Bool
  | [], _ => true
  | _ :: _, [] => false
  | a :: w, b :: s => ciEq a b && ciStarts w s

/-- Case-insensitive substring search, as `re.search(w, s, re.I)` for a
plain-letters pattern. -/
def ciSub (w : List Char) : List Char → Bool
  | [] => ciStarts w []
  | c :: rest => ciStarts w (c :: rest) || ciSub w rest

/-- `re.search(r"\b<w>\b", s, re.I)` for a letters-only `w`: some
case-insensitive occurrence of `w` whose neighbours are not word
characters.  `prev` is the character before the current position. -/
def wordSearchAux (w : List Char) : List Char → Option Char → Bool
  | [], _ => false
  | c :: rest, prev =>
      (boundary prev && ciStarts w (c :: rest) &&
        after ((c :: rest).drop w.length)) ||
      wordSearchAux w rest (some c)
where
  boundary : Option Char → Bool
    | none => true
    | some p => !isWordChar p
  after : List Char → Bool
    | [] => true
    | c :: _ => !isWordChar c

def wordSearch (w s : List Char) : Bool := wordSearchAux w s none

/-- `detect_algo_from_name` (lines 111-116) over `NAME_TO_ALGO` (lines
80-86) in order.  The alternation `paq8px|paq8|paq` has a match exactly
when `paq` occurs as a case-insensitive substring, since every
alternative starts with `paq`. -/
def detect_algo_from_name (s : List Char) : Option (List Char) :=
  if wordSearch "cmix".data s then some "cmix".data else
  if wordSearch "gmix".data s then some "gmix".data else
  if wordSearch "bsc".data s then some "bsc".data else
  if ciSub "lstm".data s then some "lstm".data else
  if ciSub "paq".data s then some "paq8px".data else none

def stripL (s : List Char) : List Char :=
  ((s.dropWhile Char.isWhitespace).reverse.dropWhile
    Char.isWhitespace).reverse

/-- `load_manifest_algo_if_any` (lines 118-129): `field` is the
manifest's "algorithm" value when a sibling manifest.json exists and
parses (`none` otherwise, which is also what every exception path
returns); the value is stripped, lowercased, and accepted only when in
`SUPPORTED_ALGOS`. -/
def load_manifest_algo (field : Option (List Char)) : Option (List Char) :=
  match field with
  | none => none
  | some v =>
      let alg := lowerL (stripL v)
      if SUPPORTED_ALGOS.any (fun a => a == alg) then some alg else none

/-- `decide_algo` (lines 131-146): manifest → extension → name; `none`
is the final RuntimeError. -/
def decide_algo (manifestField : Option (List Char)) (name : List Char) :
    Option (List Char) :=
  match load_manifest_algo manifestField with
  | some a => some a
  | none =>
      match detect_algo_from_ext name with
      | some a => some a
      | none => detect_algo_from_name name

/-- The `"algorithm"` value the bsc-m03 pipeline writes into its final
manifest.json (recompress_conteiner_bsc.py line 233). -/
def bsc_manifest_algorithm : List Char := "bsc-m03".data

/-- The final artifact name
`f"final_container_iter_{it:03d}_N_{copies:04d}.bsc"`
(recompress_conteiner_bsc.py line 226). -/
def finalBscName (it copies : Nat) : List Char :=
  "final_container_iter_".data ++ padNum 3 it ++ "_N_".data ++
    padNum 4 copies ++ ".bsc".data

/-! ## Round-trip lemmas for the codec -/

theorem readEntry_entryBytes (i : Nat) (base data rest : List Nat)
    (hL : (nameBytes i base).length < 256 ^ 2)
    (hD : data.length < 256 ^ 8) :
    readEntry (entryBytes i base data ++ rest) =
      some ((nameBytes i base, data), rest) := by
  have hname2 : (leEnc 2 (nameBytes i base).length).length = 2 :=
    leEnc_length _ _
  have hd8 : (leEnc 8 data.length).length = 8 := leEnc_length _ _
  have hbs : entryBytes i base data ++ rest
      = leEnc 2 (nameBytes i base).length ++
        (nameBytes i base ++ (leEnc 8 data.length ++ (data ++ rest))) := by
    simp [entryBytes, List.append_assoc]
  rw [hbs]
  simp only [readEntry, List.take_left' hname2, List.drop_left' hname2,
    leDec_leEnc_of_lt hL, List.take_left, List.drop_left,
    List.take_left' hd8, List.drop_left' hd8, leDec_leEnc_of_lt hD,
    List.length_append, hname2, hd8]
  simp

theorem readEntries_flatMap (base data : List Nat) (a n : Nat)
    (hL : ∀ j, a ≤ j → j < a + n → (nameBytes j base).length < 256 ^ 2)
    (hD : data.length < 256 ^ 8) :
    readEntries n ((List.range' a n).flatMap (fun i => entryBytes i base data))
      = some ((List.range' a n).map (fun i => (nameBytes i base, data))) := by
  induction n generalizing a with
  | zero => simp [readEntries]
  | succ n ih =>
      have hhead : (nameBytes a base).length < 256 ^ 2 :=
        hL a le_rfl (by omega)
      have htail : ∀ j, a + 1 ≤ j → j < a + 1 + n →
          (nameBytes j base).length < 256 ^ 2 := by
        intro j h1 h2
        exact hL j (by omega) (by omega)
      rw [List.range'_succ]
      simp only [List.flatMap_cons, List.map_cons, List.append_assoc]
      rw [readEntries, readEntry_entryBytes a base data _ hhead hD]
      dsimp only
      rw [ih (a + 1) htail]

/-- Round trip at the byte level: unpacking the bytes written by
`pack_container` yields exactly `copies` entries in encounter order, the
entry for index `i` named `copy_<i padded to 4 digits>_<base>` and
carrying the source bytes unchanged.  The range hypotheses are the
`struct.pack` field-width bounds ('<I', '<H', '<Q'); outside them the
Python script raises before producing a container. -/
theorem unpack_pack_container (data : List Nat) (copies : Nat)
    (base : List Nat)
    (hcopies : copies < 256 ^ 4)
    (hL : ∀ j, 1 ≤ j → j ≤ copies → (nameBytes j base).length < 256 ^ 2)
    (hD : data.length < 256 ^ 8) :
    unpack_container (pack_container data copies base) =
      some ((List.range' 1 copies).map (fun i => (nameBytes i base, data))) := by
  have h4 : (leEnc 4 copies).length = 4 := leEnc_length _ _
  unfold pack_container unpack_container
  rw [List.take_left' h4, List.drop_left' h4, leDec_leEnc_of_lt hcopies]
  rw [if_neg (by simp [h4])]
  exact readEntries_flatMap base data 1 copies
    (fun j h1 h2 => hL j h1 (by omega)) hD

theorem nameBytes_length_pos (i : Nat) (base : List Nat) :
    0 < (nameBytes i base).length := by
  simp [nameBytes]

/-- `is_container` accepts `pack_container` output, provided the copy
count is in the sniffer's accepted range `(0, 1_000_000]` and the first
entry's name is at most 4096 bytes. -/
theorem is_container_pack (data base : List Nat) (c : Nat)
    (h2 : c + 1 ≤ 1000000)
    (hname : (nameBytes 1 base).length ≤ 4096)
    (hD : data.length < 256 ^ 8) :
    is_container (pack_container data (c + 1) base) = true := by
  have e2 : (256 : Nat) ^ 2 = 65536 := by norm_num
  have e4 : (256 : Nat) ^ 4 = 4294967296 := by norm_num
  have hLpos : 0 < (nameBytes 1 base).length := nameBytes_length_pos 1 base
  set nm := nameBytes 1 base with hnm
  have h4 : (leEnc 4 (c + 1)).length = 4 := leEnc_length _ _
  have hn2 : (leEnc 2 nm.length).length = 2 := leEnc_length _ _
  have hd8 : (leEnc 8 data.length).length = 8 := leEnc_length _ _
  have hbs : pack_container data (c + 1) base
      = leEnc 4 (c + 1) ++ (leEnc 2 nm.length ++
          (nm ++ (leEnc 8 data.length ++ (data ++
            (List.range' 2 c).flatMap (fun i => entryBytes i base data))))) := by
    simp [pack_container, List.range'_succ, entryBytes, List.append_assoc, hnm]
  rw [hbs]
  simp only [is_container, List.take_left' h4, List.drop_left' h4,
    leDec_leEnc_of_lt (show c + 1 < 256 ^ 4 by rw [e4]; omega),
    List.take_left' hn2, List.drop_left' hn2,
    leDec_leEnc_of_lt (show nm.length < 256 ^ 2 by rw [e2]; omega),
    List.take_left, List.drop_left,
    List.take_left' hd8, List.drop_left' hd8,
    leDec_leEnc_of_lt hD,
    List.length_append, h4, hn2, hd8, false_or, or_false]
  split_ifs <;> first
    | rfl
    | (exfalso; omega)
    | (exfalso
       rcases ‹False ∨ _› with hF | hP
       · exact hF
       · omega)

/-- `is_container` rejects any blob whose first four bytes decode
(little-endian) to a count of 0 or above 1,000,000. -/
theorem is_container_rejects_bad_count (bs : List Nat)
    (hlen : 4 ≤ bs.length)
    (h : leDec (bs.take 4) = 0 ∨ leDec (bs.take 4) > 1000000) :
    is_container bs = false := by
  simp only [is_container]
  rw [if_neg (by omega), if_pos h]

/-- `is_container` rejects any blob whose first entry declares a name
length of 0 or above 4096 (and, a fortiori, any blob failing an earlier
check). -/
theorem is_container_rejects_bad_name_len (bs : List Nat)
    (h : leDec ((bs.drop 4).take 2) = 0 ∨
         leDec ((bs.drop 4).take 2) > 4096) :
    is_container bs = false := by
  simp only [is_container]
  split_ifs <;> first | rfl | (exfalso; omega)

/-- `is_container` rejects any blob whose first entry declares a data
length exceeding the bytes remaining past the read position. -/
theorem is_container_rejects_bad_data_len (bs : List Nat)
    (h : leDec ((((bs.drop 4).drop 2).drop
            (leDec ((bs.drop 4).take 2))).take 8) >
         bs.length - (4 + 2 + leDec ((bs.drop 4).take 2) + 8)) :
    is_container bs = false := by
  simp only [is_container]
  split_ifs <;> first | rfl | (exfalso; omega)

/-- C3 counterexample: `sniff` does NOT accept every `pack` output.
With a 4087-byte base name the first entry's name is
`copy_0001_<base>` = 4097 bytes, above the sniffer's 4096 cap, so
`is_container` rejects a perfectly well-formed `pack_container` output
(payload [0], N = 1). -/
theorem c3_sniff_counterexample :
    is_container (pack_container [0] 1 (List.replicate 4087 97)) = false := by
  apply is_container_rejects_bad_name_len
  have hrep : (List.replicate 4087 (97 : Nat)).length = 4087 :=
    List.length_replicate _ _
  have h95 : ((95 : Nat) :: List.replicate 4087 97).length = 4088 := by
    rw [List.length_cons, hrep]
  have hcopy : (("copy_".data ++ padNum 4 1).map Char.toNat).length = 9 := by
    decide
  have hL : (nameBytes 1 (List.replicate 4087 97)).length = 4097 := by
    rw [nameBytes, List.length_append, hcopy, h95]
  have h4 : (leEnc 4 1).length = 4 := leEnc_length _ _
  have hn2 : (leEnc 2 (4097 : Nat)).length = 2 := leEnc_length _ _
  have hbs : pack_container [0] 1 (List.replicate 4087 97)
      = leEnc 4 1 ++ (leEnc 2 4097 ++
          (nameBytes 1 (List.replicate 4087 97) ++ (leEnc 8 1 ++ [0]))) := by
    rw [pack_container]
    rw [show List.range' 1 1 = [1] from rfl]
    rw [List.flatMap_cons, List.flatMap_nil, List.append_nil]
    rw [entryBytes, hL]
    rw [show ([0] : List Nat).length = 1 from rfl]
    simp only [List.append_assoc]
  rw [hbs, List.drop_left' h4, List.take_left' hn2,
    leDec_leEnc_of_lt (by norm_num : (4097 : Nat) < 256 ^ 2)]
  right
  norm_num

/-- C3 (amended): `is_container` accepts every `pack_container` output
whose copy count N satisfies 1 ≤ N ≤ 1,000,000 and whose first entry
name is at most 4096 bytes; it returns false on any blob whose first 4
bytes decode little-endian to a count of 0 or above 1,000,000, on any
blob whose first entry declares a name length of 0 or above 4096, and on
any blob whose first entry declares a data length exceeding the
remaining bytes. -/
theorem c3_sniff_accepts_pack_rejects_junk :
    (∀ data base c, c + 1 ≤ 1000000 → (nameBytes 1 base).length ≤ 4096 →
        data.length < 256 ^ 8 →
        is_container (pack_container data (c + 1) base) = true) ∧
    (∀ bs : List Nat, 4 ≤ bs.length →
        leDec (bs.take 4) = 0 ∨ leDec (bs.take 4) > 1000000 →
        is_container bs = false) ∧
    (∀ bs : List Nat,
        leDec ((bs.drop 4).take 2) = 0 ∨ leDec ((bs.drop 4).take 2) > 4096 →
        is_container bs = false) ∧
    (∀ bs : List Nat,
        leDec ((((bs.drop 4).drop 2).drop
            (leDec ((bs.drop 4).take 2))).take 8) >
          bs.length - (4 + 2 + leDec ((bs.drop 4).take 2) + 8) →
        is_container bs = false) :=
  ⟨fun data base c h1 h2 h3 => is_container_pack data base c h1 h2 h3,
   is_container_rejects_bad_count, is_container_rejects_bad_name_len,
   is_container_rejects_bad_data_len⟩

/-- Witness for C3 at concrete containers and junk blobs. -/
theorem c3_sniff_witness :
    is_container (pack_container [7] 1 [97]) = true ∧
    is_container [0, 0, 0, 0] = false ∧
    is_container [1, 0, 0, 0, 0, 0] = false ∧
    is_container
      [1, 0, 0, 0, 1, 0, 65, 255, 255, 255, 255, 255, 255, 255, 255]
      = false :=
  ⟨c3_sniff_accepts_pack_rejects_junk.1 [7] [97] 0 (by norm_num)
      (by decide) (by decide),
   c3_sniff_accepts_pack_rejects_junk.2.1 [0, 0, 0, 0] (by decide)
      (by decide),
   c3_sniff_accepts_pack_rejects_junk.2.2.1 _ (by decide),
   c3_sniff_accepts_pack_rejects_junk.2.2.2 _ (by decide)⟩

/-- C5: the timeout estimate is the base timeout plus the margin when no
throughput is known; with a positive prior throughput it is
`containerSize / max(lastBps * 0.30, 1)` (floored to seconds) plus the
margin, floored at the base timeout; it is monotonically non-decreasing
in container size for fixed throughput; and it is always ≥ the base
timeout. -/
theorem c5_est_timeout_adaptativo (cb cb2 : Nat) (lb : Option ℚ) (b : ℚ)
    (hmono : cb ≤ cb2) (hb : 0 < b) :
    est_timeout_adaptativo cb none
        = TIMEOUT_BASE_SEC + ADAPTIVE_SAFETY_MARGIN ∧
    est_timeout_adaptativo cb (some b)
        = max TIMEOUT_BASE_SEC
            (⌊(cb : ℚ) / max (b * (3 / 10)) 1⌋ + ADAPTIVE_SAFETY_MARGIN) ∧
    est_timeout_adaptativo cb lb ≤ est_timeout_adaptativo cb2 lb ∧
    TIMEOUT_BASE_SEC ≤ est_timeout_adaptativo cb lb := by
  refine ⟨rfl, by simp [est_timeout_adaptativo, hb], ?_, ?_⟩
  · cases lb with
    | none => exact le_rfl
    | some x =>
        by_cases hx : 0 < x
        · simp only [est_timeout_adaptativo, if_pos hx]
          have hd : (0 : ℚ) < max (x * (3 / 10)) 1 :=
            lt_of_lt_of_le one_pos (le_max_right _ _)
          have hcast : ((cb : ℚ)) ≤ (cb2 : ℚ) := by exact_mod_cast hmono
          exact max_le_max le_rfl
            (add_le_add_right
              (Int.floor_le_floor (by gcongr)) _)
        · simp [est_timeout_adaptativo, hx]
  · cases lb with
    | none =>
        norm_num [est_timeout_adaptativo, TIMEOUT_BASE_SEC,
          ADAPTIVE_SAFETY_MARGIN]
    | some x =>
        by_cases hx : 0 < x
        · simp only [est_timeout_adaptativo, if_pos hx]
          exact le_max_left _ _
        · norm_num [est_timeout_adaptativo, hx, TIMEOUT_BASE_SEC,
            ADAPTIVE_SAFETY_MARGIN]

/-- Witness for C5 at container sizes 0 ≤ 5 and throughput 1. -/
theorem c5_est_timeout_adaptativo_witness :
    est_timeout_adaptativo 0 none
        = TIMEOUT_BASE_SEC + ADAPTIVE_SAFETY_MARGIN ∧
    est_timeout_adaptativo 0 (some 1)
        = max TIMEOUT_BASE_SEC
            (⌊(0 : ℚ) / max (1 * (3 / 10)) 1⌋ + ADAPTIVE_SAFETY_MARGIN) ∧
    est_timeout_adaptativo 0 (some 1) ≤ est_timeout_adaptativo 5 (some 1) ∧
    TIMEOUT_BASE_SEC ≤ est_timeout_adaptativo 0 (some 1) := by
  have h := c5_est_timeout_adaptativo 0 5 (some 1) 1 (by norm_num)
    (by norm_num)
  exact ⟨h.1, by push_cast at h ⊢; exact h.2.1, h.2.2.1, h.2.2.2⟩

/-- C7 counterexample: the claim quantifies over every compressed size,
but `pct_reduction` has an explicit guard returning 0.0 when the
compressed size is 0, where the formula would give 100. -/
theorem c7_pct_reduction_counterexample :
    pct_reduction (some 5) (some 0) ≠ (1 - (0 : ℚ) / 5) * 100 := by
  norm_num [pct_reduction]

/-- C7 (amended): for every original size > 0 and compressed size > 0,
the recorded reduction percentage equals
`(1 - compressed/original) * 100`, and it is negative whenever the
compressed size exceeds the original (the guard returns 0.0 when either
size is 0 or absent). -/
theorem c7_pct_reduction (o c : Nat) (ho : 0 < o) (hc : 0 < c) :
    pct_reduction (some o) (some c) = (1 - (c : ℚ) / o) * 100 ∧
    (o < c → pct_reduction (some o) (some c) < 0) := by
  have hne : ¬(o = 0 ∨ c = 0) := by omega
  have heq : pct_reduction (some o) (some c) = (1 - (c : ℚ) / o) * 100 := by
    simp only [pct_reduction]
    rw [if_neg hne]
  refine ⟨heq, fun h => ?_⟩
  have ho' : (0 : ℚ) < o := by exact_mod_cast ho
  have h1 : (1 : ℚ) < (c : ℚ) / o := (one_lt_div ho').mpr (by exact_mod_cast h)
  rw [heq]
  nlinarith

/-- C4: an adapter that always times out drives the retry supervisor to
`exhausted` after exactly RETRY_MAX = 6 attempts; an adapter that
succeeds exactly on attempt k ≤ RETRY_MAX yields success at attempt k
with the timeout budget equal to the initial estimate doubled (k−1)
times. -/
theorem c4_retry_supervisor (t0 k : Nat) (h1 : 1 ≤ k) (h2 : k ≤ RETRY_MAX) :
    retrySupervisor (fun _ => false) t0 = RetryResult.exhausted RETRY_MAX ∧
    retrySupervisor (fun a => a == k) t0
      = RetryResult.success k (t0 * 2 ^ (k - 1)) := by
  constructor
  · simp [retrySupervisor, retryGo, RETRY_MAX]
  · rw [RETRY_MAX] at h2
    interval_cases k <;>
      simp [retrySupervisor, retryGo, RETRY_MAX] <;> ring

/-- Witness for C4 at initial budget 100, success on attempt 3. -/
theorem c4_retry_supervisor_witness :
    retrySupervisor (fun _ => false) 100 = RetryResult.exhausted RETRY_MAX ∧
    retrySupervisor (fun a => a == 3) 100
      = RetryResult.success 3 (100 * 2 ^ (3 - 1)) :=
  c4_retry_supervisor 100 3 (by decide) (by decide)

/-- C2: on the synthetic reduction sequence 5.0, 4.0, −4.0, 3.0 with
THRESHOLD_PCT = −3.0, the loop runs iterations 1-3, stops at iteration 3
(the first reduction below the threshold) without accepting it, finalizes
best = iteration 2, and never executes iteration 4; in general a
successful iteration with `red ≥ THRESHOLD_PCT` becomes the new best and
the loop continues at `it + 1`, while `red < THRESHOLD_PCT` stops the
loop at once keeping the prior best. -/
theorem c2_stopping_rule :
    mainRun true (fun it => IterOutcome.ok (c2reds it))
      = ([Effect.ensureDirs, Effect.csvHeader,
          Effect.mkIterDir 1, Effect.pack 1, Effect.runCompress 1,
          Effect.csvRow 1,
          Effect.mkIterDir 2, Effect.pack 2, Effect.runCompress 2,
          Effect.csvRow 2,
          Effect.mkIterDir 3, Effect.pack 3, Effect.runCompress 3,
          Effect.csvRow 3,
          Effect.copyBestToFinal 2, Effect.writeManifest 2],
         Except.ok ()) ∧
    Effect.pack 4 ∉ (mainRun true (fun it => IterOutcome.ok (c2reds it))).1 ∧
    (∀ f fuel it best red, f it = IterOutcome.ok red →
        THRESHOLD_PCT ≤ red →
        loopGo f (fuel + 1) it best
          = ([Effect.mkIterDir it, Effect.pack it, Effect.runCompress it,
              Effect.csvRow it] ++ (loopGo f fuel (it + 1) (some it)).1,
             (loopGo f fuel (it + 1) (some it)).2)) ∧
    (∀ f fuel it best red, f it = IterOutcome.ok red →
        red < THRESHOLD_PCT →
        loopGo f (fuel + 1) it best
          = ([Effect.mkIterDir it, Effect.pack it, Effect.runCompress it,
              Effect.csvRow it], Except.ok best)) := by
  have hmain : mainRun true (fun it => IterOutcome.ok (c2reds it))
      = ([Effect.ensureDirs, Effect.csvHeader,
          Effect.mkIterDir 1, Effect.pack 1, Effect.runCompress 1,
          Effect.csvRow 1,
          Effect.mkIterDir 2, Effect.pack 2, Effect.runCompress 2,
          Effect.csvRow 2,
          Effect.mkIterDir 3, Effect.pack 3, Effect.runCompress 3,
          Effect.csvRow 3,
          Effect.copyBestToFinal 2, Effect.writeManifest 2],
         Except.ok ()) := by rfl
  refine ⟨hmain, ?_, ?_, ?_⟩
  · rw [hmain]
    decide
  · intro f fuel it best red hf hred
    rw [loopGo, hf]
    simp only [iterResult]
    rw [if_pos hred]
    rfl
  · intro f fuel it best red hf hred
    rw [loopGo, hf]
    simp only [iterResult]
    rw [if_neg (not_le.mpr hred)]
    rfl

/-- Witness for C2's step rules: an accepted step at reduction 5 and a
rejecting step at reduction −7. -/
theorem c2_stopping_rule_witness :
    loopGo (fun _ => IterOutcome.ok 5) (0 + 1) 7 none
      = ([Effect.mkIterDir 7, Effect.pack 7, Effect.runCompress 7,
          Effect.csvRow 7] ++
            (loopGo (fun _ => IterOutcome.ok 5) 0 (7 + 1) (some 7)).1,
         (loopGo (fun _ => IterOutcome.ok 5) 0 (7 + 1) (some 7)).2) ∧
    loopGo (fun _ => IterOutcome.ok (-7)) (0 + 1) 7 (some 3)
      = ([Effect.mkIterDir 7, Effect.pack 7, Effect.runCompress 7,
          Effect.csvRow 7], Except.ok (some 3)) :=
  ⟨c2_stopping_rule.2.2.1 _ 0 7 none 5 rfl
      (by norm_num [THRESHOLD_PCT]),
   c2_stopping_rule.2.2.2 _ 0 7 (some 3) (-7) rfl
      (by norm_num [THRESHOLD_PCT])⟩

/-- C8 counterexample: with the input file absent the run does fail with
the missing-input error, but not before all work: `ensure_dirs()` and
`write_csv_header(CSV_LOG)` run before the existence check
(recompress_conteiner_gmix.py lines 159-164), so the effect trace at the
failure already holds those two effects. -/
theorem c8_missing_input_counterexample :
    (mainRun false (fun _ => IterOutcome.hardFail)).2
        = Except.error RunError.missingInput ∧
    (mainRun false (fun _ => IterOutcome.hardFail)).1
        = [Effect.ensureDirs, Effect.csvHeader] ∧
    (mainRun false (fun _ => IterOutcome.hardFail)).1 ≠ [] :=
  ⟨rfl, rfl, by decide⟩

/-- C8 (amended): when the configured input file does not exist, the run
fails fatally with the missing-input error before any iteration work —
no packing, compression, CSV row or finalization effect occurs — but
after creating the work directories and writing the CSV header. -/
theorem c8_missing_input (f : Nat → IterOutcome) :
    mainRun false f
      = ([Effect.ensureDirs, Effect.csvHeader],
         Except.error RunError.missingInput) := rfl

/-- C9: when the first iteration's reduction is below THRESHOLD_PCT (so
no iteration is ever accepted as best), the run does not fail: it copies
iteration 1's container and compressed artifact into the final directory
and returns without writing any manifest.json. -/
theorem c9_no_best_finalize (f : Nat → IterOutcome) (red : ℚ)
    (hf : f 1 = IterOutcome.ok red) (hred : red < THRESHOLD_PCT) :
    mainRun true f
      = ([Effect.ensureDirs, Effect.csvHeader, Effect.mkIterDir 1,
          Effect.pack 1, Effect.runCompress 1, Effect.csvRow 1,
          Effect.copyFirstToFinal], Except.ok ()) ∧
    ∀ it, Effect.writeManifest it ∉ (mainRun true f).1 := by
  have hloop : loopGo f MAX_ITERS 1 none
      = ([Effect.mkIterDir 1, Effect.pack 1, Effect.runCompress 1,
          Effect.csvRow 1], Except.ok none) := by
    rw [MAX_ITERS, show (300 : Nat) = 299 + 1 from rfl, loopGo, hf]
    simp only [iterResult]
    rw [if_neg (not_le.mpr hred)]
    rfl
  have hmain : mainRun true f
      = ([Effect.ensureDirs, Effect.csvHeader, Effect.mkIterDir 1,
          Effect.pack 1, Effect.runCompress 1, Effect.csvRow 1,
          Effect.copyFirstToFinal], Except.ok ()) := by
    simp only [mainRun, if_true]
    rw [hloop]
    rfl
  refine ⟨hmain, fun it => ?_⟩
  rw [hmain]
  simp

/-- Witness for C9: every iteration reports reduction −4. -/
theorem c9_no_best_finalize_witness :
    mainRun true (fun _ => IterOutcome.ok (-4))
      = ([Effect.ensureDirs, Effect.csvHeader, Effect.mkIterDir 1,
          Effect.pack 1, Effect.runCompress 1, Effect.csvRow 1,
          Effect.copyFirstToFinal], Except.ok ()) ∧
    ∀ it, Effect.writeManifest it ∉
        (mainRun true (fun _ => IterOutcome.ok (-4))).1 :=
  c9_no_best_finalize _ (-4) rfl (by norm_num [THRESHOLD_PCT])

theorem endsWithL_append_self (L t : List Char) :
    endsWithL (L ++ t) t = true := by
  rw [endsWithL]
  exact List.isSuffixOf_iff_suffix.mpr ⟨L, rfl⟩

theorem endsWithL_ne_suffix (s k t : List Char) (hs : t <:+ s)
    (hlen : t.length ≤ k.length) (hk : ¬ (t <:+ k)) :
    endsWithL s k = false := by
  rw [endsWithL, ← Bool.not_eq_true, List.isSuffixOf_iff_suffix]
  intro hsuf
  exact hk (List.suffix_of_suffix_length_le hs hsuf hlen)

/-- C6: detection runs manifest → longest-suffix → name pattern, first
match winning: a manifest field naming a supported algorithm always
wins; a manifest declaring gmix resolves gmix whatever the filename;
`final_container.bsc` with no manifest resolves bsc (suffix rule);
the name-pattern fallback is case-insensitive (`my-BSC-file` → bsc);
and the suffix key list is scanned longest-first (it is sorted by
non-increasing length and is a permutation of EXT_MAP's entries). -/
theorem c6_decide_algo (v name a : List Char)
    (hm : load_manifest_algo (some v) = some a) :
    decide_algo (some v) name = some a ∧
    (∀ nm, decide_algo (some "gmix".data) nm = some "gmix".data) ∧
    decide_algo none "final_container.bsc".data = some "bsc".data ∧
    decide_algo none "my-BSC-file".data = some "bsc".data ∧
    List.Pairwise (fun x y => (y.1).length ≤ (x.1).length) EXT_SORTED ∧
    EXT_SORTED.Perm EXT_MAP := by
  refine ⟨?_, fun nm => rfl, by decide, by decide, by decide, by decide⟩
  simp [decide_algo, hm]

/-- Witness for C6: a manifest field " BSC " (stripped and lowercased to
the supported "bsc") wins over a filename whose extension suggests
gmix. -/
theorem c6_decide_algo_witness :
    decide_algo (some " BSC ".data) "whatever.gmix".data
        = some "bsc".data ∧
    (∀ nm, decide_algo (some "gmix".data) nm = some "gmix".data) ∧
    decide_algo none "final_container.bsc".data = some "bsc".data ∧
    decide_algo none "my-BSC-file".data = some "bsc".data ∧
    List.Pairwise (fun x y => (y.1).length ≤ (x.1).length) EXT_SORTED ∧
    EXT_SORTED.Perm EXT_MAP :=
  c6_decide_algo " BSC ".data "whatever.gmix".data "bsc".data (by decide)

/-- C10: the bsc-m03 recompressor writes "bsc-m03" as its manifest
algorithm; that token is not in the restore script's supported set, so
the manifest stage yields no algorithm and detection of every final
artifact `final_container_iter_<it>_N_<copies>.bsc` falls through to the
`.bsc` filename-suffix rule, which resolves bsc. -/
theorem c10_bsc_manifest_falls_through (it copies : Nat) :
    load_manifest_algo (some bsc_manifest_algorithm) = none ∧
    bsc_manifest_algorithm ∉ SUPPORTED_ALGOS ∧
    detect_algo_from_ext (finalBscName it copies) = some "bsc".data ∧
    decide_algo (some bsc_manifest_algorithm) (finalBscName it copies)
      = some "bsc".data := by
  have hbsc : (".bsc".data : List Char) <:+ lowerL (finalBscName it copies) := by
    rw [finalBscName]
    simp only [lowerL, List.map_append]
    rw [show List.map Char.toLower ".bsc".data = ".bsc".data from by decide]
    exact ⟨_, rfl⟩
  have e1 := endsWithL_ne_suffix _ ".paq8px".data ".bsc".data hbsc
    (by decide) (by decide)
  have e2 := endsWithL_ne_suffix _ ".cmix".data ".bsc".data hbsc
    (by decide) (by decide)
  have e3 := endsWithL_ne_suffix _ ".gmix".data ".bsc".data hbsc
    (by decide) (by decide)
  have e4 := endsWithL_ne_suffix _ ".lstm".data ".bsc".data hbsc
    (by decide) (by decide)
  have e5 := endsWithL_ne_suffix _ ".paq8".data ".bsc".data hbsc
    (by decide) (by decide)
  have epos : endsWithL (lowerL (finalBscName it copies)) ".bsc".data
      = true := by
    obtain ⟨w, hw⟩ := hbsc
    rw [← hw]
    exact endsWithL_append_self w _
  have hext : detect_algo_from_ext (finalBscName it copies)
      = some "bsc".data := by
    simp [detect_algo_from_ext, EXT_SORTED, e1, e2, e3, e4, e5, epos]
  refine ⟨by decide, by decide, hext, ?_⟩
  simp only [decide_algo,
    show load_manifest_algo (some bsc_manifest_algorithm) = none from
      by decide]
  rw [hext]

/-- Witness for C7 at original 2, compressed 3 (inflating run). -/
theorem c7_pct_reduction_witness :
    pct_reduction (some 2) (some 3) = (1 - (3 : ℚ) / 2) * 100 ∧
    (2 < 3 → pct_reduction (some 2) (some 3) < 0) := by
  have h := c7_pct_reduction 2 3 (by norm_num) (by norm_num)
  exact ⟨by push_cast at h ⊢; exact h.1, fun hlt => h.2 hlt⟩

/-- C1: for every byte payload, every copy count N ≥ 1 and every source
base name (as UTF-8 bytes), unpacking the container produced by
`pack_container payload N baseName` yields exactly N files in encounter
order, each byte-identical to the payload, the k-th (0-based k, 1-based
index k+1) named `copy_<k+1 zero-padded to 4 digits>_<baseName>`.
The remaining hypotheses are the `struct.pack` field-width bounds under
which the Python writer is defined at all. -/
theorem c1_pack_unpack_roundtrip (data base : List Nat) (copies : Nat)
    (hpos : 1 ≤ copies) (hcopies : copies < 256 ^ 4)
    (hL : ∀ j, 1 ≤ j → j ≤ copies → (nameBytes j base).length < 256 ^ 2)
    (hD : data.length < 256 ^ 8) :
    ∃ files, unpack_container (pack_container data copies base) = some files ∧
      files.length = copies ∧
      ∀ k, (hk : k < files.length) →
        files.get ⟨k, hk⟩ = (nameBytes (k + 1) base, data) := by
  refine ⟨_, unpack_pack_container data copies base hcopies hL hD, ?_, ?_⟩
  · simp [List.length_range']
  · intro k hk
    simp only [List.get_eq_getElem, List.getElem_map, List.getElem_range']
    norm_num [Nat.add_comm 1 k]

/-- Witness for C1 at payload [7,8], N = 2, base name "a". -/
theorem c1_pack_unpack_roundtrip_witness :
    ∃ files, unpack_container (pack_container [7, 8] 2 [97]) = some files ∧
      files.length = 2 ∧
      ∀ k, (hk : k < files.length) →
        files.get ⟨k, hk⟩ = (nameBytes (k + 1) [97], [7, 8]) :=
  c1_pack_unpack_roundtrip [7, 8] [97] 2 (by decide) (by decide)
    (fun j h1 h2 => by interval_cases j <;> decide) (by decide)

end Arch
